import Mathlib

/-!
Shallow embedding of the core of the VkrAgpu currency-rates application
(src/core/api_client.py, src/core/data_handler.py, src/core/calculator.py).

Modelling conventions:
* Calendar dates are day numbers of type `Int`; `now` is the current day
  (both `date.today()` and `datetime.now().date()`), `nowTime` the current
  timestamp in seconds (`datetime.now()` as used for cache freshness).
* A JSON payload from the provider (`data : Dict[str, Any]`) is `ApiData`:
  the list of top-level keys present, the parse result of the embedded
  `Date` field (`datetime.strptime(data[Date].split(T)[0], %Y-%m-%d)`,
  `none` when parsing raises), and the value of the `Valute` map as an
  ordered association list.  A currency entry likewise carries its key set
  plus the typed values of the fields the code reads.
* The on-disk cache directory is an association list from day (the date
  encoded in the file name `rates_YYYYMMDD.json`) to the stored payload and
  its write time; a new write conses, and `List.lookup` finds the newest
  entry first (last write wins).
* Network I/O is an oracle `responses : Nat → HttpOutcome` giving the
  outcome of the i-th `session.get` of a call.  `get_rates` is instrumented:
  besides its Python return value it records the final cache, the number of
  network attempts issued, whether `_get_last_available_cached_data` was
  invoked, and the list of back-off delays passed to `time.sleep`.
* Python float arithmetic is modelled by exact rationals; Python `round`
  (round half to even) is `pyRound`.
-/



/-- One currency entry of the `Valute` map: the set of JSON keys present in
the object (in order, for dict truthiness and `in` tests) together with the
typed values of the fields the code reads when present. -/
structure CurrencyEntry where
  keys : List String
  nominal : Int
  value : ℚ
  previous : ℚ
  name : String
deriving DecidableEq, Repr

/-- A provider payload: top-level keys present, the parse result of the
embedded `Date` string, and the `Valute` map as an ordered association list
(its value when the key is present). -/
structure ApiData where
  keys : List String
  dateParsed : Option Int
  valute : List (String × CurrencyEntry)
deriving DecidableEq, Repr

/-- The configuration dictionary, with the defaults used at each
`config.get` site in the source. -/
structure Config where
  cache_enabled : Bool
  cache_duration_hours : Int
  timeout : Int
  base_url : String
  max_retries : Nat
  retry_delay : Int
deriving Repr

/-- The default configuration (each field is the literal default passed to
`config.get` in the source). -/
def defaultConfig : Config :=
  ⟨true, 12, 10, "https://www.cbr-xml-daily.ru", 3, 2⟩

/-- One cache file: the stored payload and the file's modification time. -/
structure CacheEntry where
  data : ApiData
  writeTime : Int
deriving DecidableEq, Repr

/-- The cache directory: day (from the file name) to entry; newest first. -/
abbrev Cache := List (Int × CacheEntry)

/-- Embedding of `CBRApiClient._load_from_cache`: returns the cached payload
for `target` when caching is enabled, `target` is not in the future, the file
exists, the date re-parsed from the file name (equal to `target`) is not in
the future, and the file is younger than `cache_duration_hours`. -/
def load_from_cache (cfg : Config) (now : Int) (nowTime : Int) (cache : Cache)
    (target : Int) : Option ApiData :=
  if ¬cfg.cache_enabled then none
  else if now < target then none
  else
    match cache.lookup target with
    | none => none
    | some e =>
        if now < target then none
        else if nowTime - e.writeTime < cfg.cache_duration_hours * 3600 then some e.data
        else none

/-- Embedding of `CBRApiClient._save_to_cache`: writes `data` under `target`
unless caching is disabled or `target` is in the future. -/
def save_to_cache (cfg : Config) (now : Int) (nowTime : Int) (cache : Cache)
    (data : ApiData) (target : Int) : Cache :=
  if ¬cfg.cache_enabled then cache
  else if now < target then cache
  else (target, ⟨data, nowTime⟩) :: cache

/-- Embedding of `CBRApiClient._get_cache_date_from_data`: the date embedded
in the payload, coerced to `now` when it lies in the future; `now` when the
`Date` key is absent or its value fails to parse. -/
def get_cache_date_from_data (now : Int) (data : ApiData) : Int :=
  if data.keys.contains "Date" then
    match data.dateParsed with
    | some apiDate => if now < apiDate then now else apiDate
    | none => now
  else now

/-- The loop body of `CBRApiClient._get_last_available_cached_data`:
`daysBack` is the current loop counter, `fuel` the remaining iterations of
`range(0, 8)`.  The future-date `continue` branch is kept from the source
even though `now - daysBack` can never exceed `now`. -/
def scan_cached_days (cfg : Config) (now : Int) (nowTime : Int) (cache : Cache) :
    Nat → Nat → Option ApiData
  | _, 0 => none
  | daysBack, fuel + 1 =>
      let checkDate : Int := now - (daysBack : Int)
      if now < checkDate then
        scan_cached_days cfg now nowTime cache (daysBack + 1) fuel
      else
        match load_from_cache cfg now nowTime cache checkDate with
        | some d => some d
        | none => scan_cached_days cfg now nowTime cache (daysBack + 1) fuel

/-- Embedding of `CBRApiClient._get_last_available_cached_data`: scan the
cache for `days_back in range(0, 8)`, i.e. from `now` back to `now - 7`. -/
def get_last_available_cached_data (cfg : Config) (now : Int) (nowTime : Int)
    (cache : Cache) : Option ApiData :=
  scan_cached_days cfg now nowTime cache 0 8

/-- Embedding of `CBRApiClient._build_url_for_date`: empty string for a
future date, the daily URL for today, the archive URL otherwise (the
`/{year}/{month:02d}/{day:02d}/` path components are rendered from the day
number, which determines them). -/
def build_url_for_date (cfg : Config) (now : Int) (target : Int) : String :=
  if now < target then ""
  else if target == now then cfg.base_url ++ "/daily_json.js"
  else cfg.base_url ++ "/archive/" ++ toString target ++ "/daily_json.js"

/-- The top-level keys required by both validators. -/
def requiredKeys : List String := ["Date", "PreviousDate", "Valute"]

/-- The per-currency fields required by `CBRApiClient._validate_data`. -/
def requiredCurrencyFields : List String :=
  ["ID", "NumCode", "CharCode", "Nominal", "Name", "Value", "Previous"]

/-- Embedding of `AsyncApiWorker._validate_data`: requires the three
top-level keys and a non-empty `Valute` map; no per-currency check. -/
def worker_validate_data (data : ApiData) : Bool :=
  if ¬requiredKeys.all (fun k => data.keys.contains k) then false
  else
    let valuteData := if data.keys.contains "Valute" then data.valute else []
    if valuteData.isEmpty then false
    else true

/-- Embedding of `CBRApiClient._validate_data`: the worker checks plus a
representative check of the first `Valute` entry.  `if first_currency:` is
dict truthiness, so an entry that is an empty object skips the field
check. -/
def validate_data (data : ApiData) : Bool :=
  if ¬requiredKeys.all (fun k => data.keys.contains k) then false
  else
    let valuteData := if data.keys.contains "Valute" then data.valute else []
    if valuteData.isEmpty then false
    else
      match valuteData.head? with
      | some kv =>
          if ¬kv.2.keys.isEmpty then
            requiredCurrencyFields.all (fun f => kv.2.keys.contains f)
          else true
      | none => true

/-- Outcome of one `session.get` call, as classified by the `except`
clauses of the source: a parsed 200 response, an HTTP error status from
`raise_for_status`, a connection error, a timeout, another
`RequestException`, or any other exception. -/
inductive HttpOutcome where
  | ok (data : ApiData)
  | httpError (status : Nat)
  | connError
  | timeout
  | reqError
  | otherError
deriving DecidableEq, Repr

/-- Whether an outcome falls to the bottom of the retry loop (retried after
a back-off sleep): every HTTP error other than 404, connection errors,
timeouts and other `RequestException`s. -/
def retryable : HttpOutcome → Bool
  | .httpError s => s != 404
  | .connError => true
  | .timeout => true
  | .reqError => true
  | _ => false

/-- Instrumented result of a `CBRApiClient.get_rates` call: the Python
return value, the cache directory after the call, the number of
`session.get` calls issued, whether `_get_last_available_cached_data` ran,
and the arguments of the `time.sleep` calls in order. -/
structure GetRatesResult where
  result : Option ApiData
  cache : Cache
  attempts : Nat
  fallbackUsed : Bool
  sleeps : List Int
deriving DecidableEq, Repr

/-- The retry loop of `CBRApiClient.get_rates` (`for attempt in
range(max_retries)`), starting at attempt index `i` with `fuel` iterations
left.  Exhausting the loop falls back to the cache scan.  A valid payload is
saved under the payload-derived date; a 404 returns `None` at once; a
validation failure or unexpected exception falls back to the cache scan;
retryable errors sleep `retry_delay * 2 ** attempt` unless this was the last
attempt. -/
def fetch_loop (cfg : Config) (now : Int) (nowTime : Int) (cache : Cache)
    (responses : Nat → HttpOutcome) : Nat → Nat → GetRatesResult
  | _, 0 =>
      ⟨get_last_available_cached_data cfg now nowTime cache, cache, 0, true, []⟩
  | i, fuel + 1 =>
      match responses i with
      | .ok data =>
          if validate_data data then
            let dataDate := get_cache_date_from_data now data
            ⟨some data, save_to_cache cfg now nowTime cache data dataDate, 1, false, []⟩
          else
            ⟨get_last_available_cached_data cfg now nowTime cache, cache, 1, true, []⟩
      | .httpError s =>
          if s == 404 then ⟨none, cache, 1, false, []⟩
          else
            let r := fetch_loop cfg now nowTime cache responses (i + 1) fuel
            ⟨r.result, r.cache, r.attempts + 1, r.fallbackUsed,
              if fuel == 0 then r.sleeps else cfg.retry_delay * 2 ^ i :: r.sleeps⟩
      | .connError | .timeout | .reqError =>
          let r := fetch_loop cfg now nowTime cache responses (i + 1) fuel
          ⟨r.result, r.cache, r.attempts + 1, r.fallbackUsed,
            if fuel == 0 then r.sleeps else cfg.retry_delay * 2 ^ i :: r.sleeps⟩
      | .otherError =>
          ⟨get_last_available_cached_data cfg now nowTime cache, cache, 1, true, []⟩

/-- Embedding of `CBRApiClient.get_rates`: default the date to today, serve
future dates from the backward cache scan, then try the cache, then the
network with the retry loop (the URL is only built, never consumed by the
model: the oracle stands for the response it would fetch). -/
def get_rates (cfg : Config) (now : Int) (nowTime : Int) (cache : Cache)
    (responses : Nat → HttpOutcome) (targetOpt : Option Int) : GetRatesResult :=
  let target := targetOpt.getD now
  if now < target then
    ⟨get_last_available_cached_data cfg now nowTime cache, cache, 0, true, []⟩
  else
    match load_from_cache cfg now nowTime cache target with
    | some d => ⟨some d, cache, 0, false, []⟩
    | none =>
        let url := build_url_for_date cfg now target
        if url = "" then
          ⟨get_last_available_cached_data cfg now nowTime cache, cache, 0, true, []⟩
        else
          fetch_loop cfg now nowTime cache responses 0 cfg.max_retries

/-- Instrumented result of `AsyncApiWorker._fetch_from_api`: the Python
return value, the number of `session.get` calls, and the sleep arguments. -/
structure WorkerFetchResult where
  result : Option ApiData
  attempts : Nat
  sleeps : List Int
deriving DecidableEq, Repr

/-- The retry loop of `AsyncApiWorker._fetch_from_api`.  Differences from
the client loop: the running flag is checked before each request; a payload
failing the worker validator raises `ValueError`, caught by the generic
handler (return `None`, no cache fallback); the sleep is also conditional on
the running flag. -/
def worker_fetch_loop (cfg : Config) (running : Bool)
    (responses : Nat → HttpOutcome) : Nat → Nat → WorkerFetchResult
  | _, 0 => ⟨none, 0, []⟩
  | i, fuel + 1 =>
      if ¬running then ⟨none, 0, []⟩
      else
        match responses i with
        | .ok data =>
            if worker_validate_data data then ⟨some data, 1, []⟩
            else ⟨none, 1, []⟩
        | .httpError s =>
            if s == 404 then ⟨none, 1, []⟩
            else
              let r := worker_fetch_loop cfg running responses (i + 1) fuel
              ⟨r.result, r.attempts + 1,
                if fuel == 0 then r.sleeps else cfg.retry_delay * 2 ^ i :: r.sleeps⟩
        | .connError | .timeout | .reqError =>
            let r := worker_fetch_loop cfg running responses (i + 1) fuel
            ⟨r.result, r.attempts + 1,
              if fuel == 0 then r.sleeps else cfg.retry_delay * 2 ^ i :: r.sleeps⟩
        | .otherError => ⟨none, 1, []⟩

/-- Embedding of `AsyncApiWorker._fetch_from_api`: a future date returns
`None` before any session is opened; otherwise the retry loop runs. -/
def worker_fetch_from_api (cfg : Config) (running : Bool) (now : Int)
    (target : Int) (responses : Nat → HttpOutcome) : WorkerFetchResult :=
  if now < target then ⟨none, 0, []⟩
  else worker_fetch_loop cfg running responses 0 cfg.max_retries

/-- Python `round` to an integer: round half to even. -/
def pyRoundInt (q : ℚ) : ℤ :=
  let f := q.floor
  let frac := q - (f : ℚ)
  if frac < 1 / 2 then f
  else if 1 / 2 < frac then f + 1
  else if f % 2 = 0 then f else f + 1

/-- Python `round(q, ndigits)`. -/
def pyRound (ndigits : Nat) (q : ℚ) : ℚ :=
  (pyRoundInt (q * 10 ^ ndigits) : ℚ) / 10 ^ ndigits

/-- One row of `DataHandler._parse_and_process` output (the fields of the
`currency_entry` dictionary built per currency). -/
structure ProcessedEntry where
  char_code : String
  name : String
  nominal : Int
  value : ℚ
  normalized_value : ℚ
  previous : ℚ
  normalized_previous : ℚ
  abs_change : ℚ
  percent_change : ℚ
  date : Int
deriving DecidableEq, Repr

/-- The per-currency body of `DataHandler._parse_and_process`: `none` when a
`KeyError` (a missing `Nominal`, `Value`, `Previous` or `Name` field) or a
`ZeroDivisionError` (`nominal = 0`) is caught and the currency skipped. -/
def process_currency (actualDate : Int) (kv : String × CurrencyEntry) :
    Option ProcessedEntry :=
  let ci := kv.2
  if ci.keys.contains "Nominal" ∧ ci.keys.contains "Value" ∧
      ci.keys.contains "Previous" ∧ ci.keys.contains "Name" then
    if ci.nominal = 0 then none
    else
      let currentNormalized := ci.value / (ci.nominal : ℚ)
      let previousNormalized := ci.previous / (ci.nominal : ℚ)
      let absoluteChange := currentNormalized - previousNormalized
      let percentChange :=
        if previousNormalized ≠ 0 then absoluteChange / previousNormalized * 100
        else 0
      some ⟨kv.1, ci.name, ci.nominal, ci.value, pyRound 4 currentNormalized,
        ci.previous, pyRound 4 previousNormalized, pyRound 4 absoluteChange,
        pyRound 2 percentChange, actualDate⟩
  else none

/-- Embedding of `DataHandler._parse_and_process`: process each currency of
the `Valute` map, skipping failures, then sort by currency code (a stable
sort, as Python's `list.sort`). -/
def parse_and_process (raw : ApiData) (targetOpt : Option Int) (now : Int) :
    List ProcessedEntry :=
  let valuteDict := if raw.keys.contains "Valute" then raw.valute else []
  let actualDate := targetOpt.getD now
  (valuteDict.filterMap (process_currency actualDate)).insertionSort
    (fun a b => a.char_code ≤ b.char_code)

/-- Embedding of `Calculator.calculate_changes`: `(0.0, 0.0)` when the
previous rate is zero, likewise when the caught `ZeroDivisionError` from a
zero nominal fires; otherwise the rounded absolute and percent changes. -/
def calculate_changes (current_rate previous_rate : ℚ) (nominal : Int) : ℚ × ℚ :=
  if previous_rate = 0 then (0, 0)
  else if nominal = 0 then (0, 0)
  else
    let currentNormalized := current_rate / (nominal : ℚ)
    let previousNormalized := previous_rate / (nominal : ℚ)
    let absoluteChange := currentNormalized - previousNormalized
    let percentChange := absoluteChange / previousNormalized * 100
    (pyRound 4 absoluteChange, pyRound 2 percentChange)

/-! ### Helper lemmas -/

/-- The date under which a payload is cached never exceeds today. -/
theorem get_cache_date_from_data_le (now : Int) (data : ApiData) :
    get_cache_date_from_data now data ≤ now := by
  unfold get_cache_date_from_data
  split
  · cases data.dateParsed with
    | none => simp
    | some d =>
        simp only
        split
        · exact le_refl now
        · omega
  · exact le_refl now

/-- Writing to the cache never changes the entry of a strictly-future day. -/
theorem lookup_save_of_lt (cfg : Config) (now : Int) (t : Int) (cache : Cache)
    (data : ApiData) (target day : Int) (h : now < day) :
    (save_to_cache cfg now t cache data target).lookup day = cache.lookup day := by
  unfold save_to_cache
  split
  · rfl
  · split
    · rfl
    · rename_i h1 h2
      have hne : (day == target) = false := by
        simp only [beq_eq_false_iff_ne, ne_eq]
        omega
      simp [List.lookup_cons, hne]

/-- The retry loop never changes the cache entry of a strictly-future day. -/
theorem fetch_loop_cache_future (cfg : Config) (now : Int) (t : Int) (cache : Cache)
    (responses : Nat → HttpOutcome) :
    ∀ (fuel i : Nat) (day : Int), now < day →
      (fetch_loop cfg now t cache responses i fuel).cache.lookup day = cache.lookup day := by
  intro fuel
  induction fuel with
  | zero => intro i day h; rfl
  | succ f ih =>
      intro i day h
      unfold fetch_loop
      cases hr : responses i with
      | ok data =>
          simp only
          split
          · exact lookup_save_of_lt cfg now t cache data _ day h
          · rfl
      | httpError s =>
          simp only
          split
          · rfl
          · exact ih (i + 1) day h
      | connError => exact ih (i + 1) day h
      | timeout => exact ih (i + 1) day h
      | reqError => exact ih (i + 1) day h
      | otherError => rfl

/-- A URL built for a non-future date is never the empty string. -/
theorem build_url_ne_empty (cfg : Config) (now target : Int) (h : target ≤ now) :
    build_url_for_date cfg now target ≠ "" := by
  unfold build_url_for_date
  rw [if_neg (by omega)]
  have h14 : "/daily_json.js".length = 14 := rfl
  split
  · intro hc
    have hl := congrArg String.length hc
    rw [String.length_append, h14] at hl
    simp at hl
  · intro hc
    have hl := congrArg String.length hc
    rw [String.length_append, h14] at hl
    simp at hl

/-! ### Sample data for witnesses and counterexamples -/

/-- A well-formed currency entry (all seven fields present, nominal 1). -/
def sampleEntry : CurrencyEntry := ⟨requiredCurrencyFields, 1, 90, 85, "Dollar"⟩

/-- A well-formed payload whose embedded date is day 99. -/
def sampleData : ApiData := ⟨requiredKeys, some 99, [("USD", sampleEntry)]⟩

/-- A well-formed payload whose embedded date is day 101 (the future when
today is day 100). -/
def futureData : ApiData := ⟨requiredKeys, some 101, [("USD", sampleEntry)]⟩

/-- A cache holding one entry for day 99, written at time 0. -/
def cacheYesterday : Cache := [(99, ⟨sampleData, 0⟩)]

/-! ### Claims -/

/-- C1: a provider response whose embedded date is strictly after today is
persisted under today's date, and a get_rates call never creates or changes
a cache entry of any strictly-future date. -/
theorem c1_no_future_date_invariant :
    (∀ (now : Int) (data : ApiData) (d : Int),
        data.keys.contains "Date" = true → data.dateParsed = some d → now < d →
        get_cache_date_from_data now data = now) ∧
    (∀ (cfg : Config) (now nowTime : Int) (cache : Cache)
        (responses : Nat → HttpOutcome) (targetOpt : Option Int) (day : Int),
        now < day →
        (get_rates cfg now nowTime cache responses targetOpt).cache.lookup day =
          cache.lookup day) := by
  constructor
  · intro now data d hk hp hlt
    unfold get_cache_date_from_data
    simp [hk, hp, hlt]
  · intro cfg now nowTime cache responses targetOpt day h
    unfold get_rates
    simp only
    split
    · rfl
    · split
      · rfl
      · split
        · rfl
        · exact fetch_loop_cache_future cfg now nowTime cache responses cfg.max_retries 0 day h

/-- Witness for C1 at concrete inputs: a payload dated day 101 fetched on
day 100 is coerced to day 100, and the resulting cache has no entry at day
101. -/
theorem c1_no_future_date_invariant_witness :
    get_cache_date_from_data 100 futureData = 100 ∧
    (get_rates defaultConfig 100 0 [] (fun _ => .ok futureData)
        (some 100)).cache.lookup 101 = none := by
  constructor
  · exact c1_no_future_date_invariant.1 100 futureData 101 (by decide) rfl (by decide)
  · exact (c1_no_future_date_invariant.2 defaultConfig 100 0 []
      (fun _ => .ok futureData) (some 100) 101 (by decide)).trans rfl

/-- C2 counterexample: requesting day 101 on day 100 with a cached snapshot
for day 99 returns that snapshot successfully (and issues no network
attempt); the request is not rejected with an invalid-date error. -/
theorem c2_counterexample :
    (get_rates defaultConfig 100 0 cacheYesterday (fun _ => .connError)
        (some 101)).result = some sampleData ∧
    (get_rates defaultConfig 100 0 cacheYesterday (fun _ => .connError)
        (some 101)).attempts = 0 := by
  decide

/-- C2 (amended): for a requested date strictly after today, get_rates
issues no network attempt and no URL is built (the URL would be empty), but
instead of an invalid-date error it returns the result of the backward
cache scan; the async worker's fetch likewise issues no attempt and returns
None. -/
theorem c2_future_date_no_network :
    ∀ (cfg : Config) (now nowTime : Int) (cache : Cache)
      (responses : Nat → HttpOutcome) (target : Int) (running : Bool),
      now < target →
      (get_rates cfg now nowTime cache responses (some target)).attempts = 0 ∧
      (get_rates cfg now nowTime cache responses (some target)).result =
        get_last_available_cached_data cfg now nowTime cache ∧
      build_url_for_date cfg now target = "" ∧
      (worker_fetch_from_api cfg running now target responses).attempts = 0 ∧
      (worker_fetch_from_api cfg running now target responses).result = none := by
  intro cfg now nowTime cache responses target running h
  refine ⟨?_, ?_, ?_, ?_, ?_⟩ <;>
    simp [get_rates, build_url_for_date, worker_fetch_from_api, h]

/-- Witness for C2 (amended) at concrete inputs. -/
theorem c2_future_date_no_network_witness :
    (100 : Int) < 101 ∧
    ((get_rates defaultConfig 100 0 [] (fun _ => .connError) (some 101)).attempts = 0 ∧
      (get_rates defaultConfig 100 0 [] (fun _ => .connError) (some 101)).result =
        get_last_available_cached_data defaultConfig 100 0 [] ∧
      build_url_for_date defaultConfig 100 101 = "" ∧
      (worker_fetch_from_api defaultConfig true 100 101 (fun _ => .connError)).attempts = 0 ∧
      (worker_fetch_from_api defaultConfig true 100 101 (fun _ => .connError)).result = none) :=
  ⟨by decide, c2_future_date_no_network defaultConfig 100 0 []
    (fun _ => .connError) 101 true (by decide)⟩

/-- Behavior of the retry loop when the first `k` outcomes are retryable
and attempt `b + k` yields HTTP 404: the call returns None at once with
`k + 1` attempts, no fallback scan, an unchanged cache, and one back-off
sleep per retried attempt. -/
theorem fetch_loop_404 (cfg : Config) (now : Int) (t : Int) (cache : Cache)
    (responses : Nat → HttpOutcome) :
    ∀ (k b fuel : Nat),
      (∀ j, j < k → retryable (responses (b + j)) = true) →
      responses (b + k) = .httpError 404 →
      k < fuel →
      fetch_loop cfg now t cache responses b fuel =
        ⟨none, cache, k + 1, false,
          (List.range k).map (fun j => cfg.retry_delay * 2 ^ (b + j))⟩ := by
  intro k
  induction k with
  | zero =>
      intro b fuel hret h404 hk
      obtain ⟨f, rfl⟩ : ∃ f, fuel = f + 1 := ⟨fuel - 1, by omega⟩
      unfold fetch_loop
      rw [show b + 0 = b from rfl] at h404
      rw [h404]
      simp
  | succ k ih =>
      intro b fuel hret h404 hk
      obtain ⟨f, rfl⟩ : ∃ f, fuel = f + 1 := ⟨fuel - 1, by omega⟩
      have hf : k < f := by omega
      have h0 := hret 0 (by omega)
      simp only [Nat.add_zero] at h0
      have hrec := ih (b + 1) f
        (fun j hj => by
          have := hret (j + 1) (by omega)
          rwa [show b + (j + 1) = b + 1 + j from by omega] at this)
        (by rwa [show b + 1 + k = b + (k + 1) from by omega])
        hf
      have hshift : ∀ j : Nat, b + 1 + j = b + (j + 1) := by omega
      have hfz : (f == 0) = false := by
        simp only [beq_eq_false_iff_ne, ne_eq]
        omega
      unfold fetch_loop
      cases hr : responses b with
      | ok data => rw [hr] at h0; simp [retryable] at h0
      | otherError => rw [hr] at h0; simp [retryable] at h0
      | httpError s =>
          rw [hr] at h0
          have hs : (s == 404) = false := by
            simp only [retryable, bne] at h0
            simpa using h0
          simp only [hs, Bool.false_eq_true, if_false, hrec, hfz]
          simp [List.range_succ_eq_map, List.map_cons, List.map_map,
            Function.comp_def, Nat.succ_eq_add_one, hshift]
      | connError =>
          simp only [hrec, hfz]
          simp [List.range_succ_eq_map, List.map_cons, List.map_map,
            Function.comp_def, Nat.succ_eq_add_one, hshift]
      | timeout =>
          simp only [hrec, hfz]
          simp [List.range_succ_eq_map, List.map_cons, List.map_map,
            Function.comp_def, Nat.succ_eq_add_one, hshift]
      | reqError =>
          simp only [hrec, hfz]
          simp [List.range_succ_eq_map, List.map_cons, List.map_map,
            Function.comp_def, Nat.succ_eq_add_one, hshift]

/-- Behavior of the retry loop when the first `k` outcomes are retryable
and attempt `b + k` yields a payload failing the validator: the raised
ValueError is terminal — no further attempt — and the call returns the
backward cache scan with the cache unchanged. -/
theorem fetch_loop_invalid (cfg : Config) (now : Int) (t : Int) (cache : Cache)
    (responses : Nat → HttpOutcome) :
    ∀ (k b fuel : Nat) (data : ApiData),
      (∀ j, j < k → retryable (responses (b + j)) = true) →
      responses (b + k) = .ok data →
      validate_data data = false →
      k < fuel →
      fetch_loop cfg now t cache responses b fuel =
        ⟨get_last_available_cached_data cfg now t cache, cache, k + 1, true,
          (List.range k).map (fun j => cfg.retry_delay * 2 ^ (b + j))⟩ := by
  intro k
  induction k with
  | zero =>
      intro b fuel data hret hok hval hk
      obtain ⟨f, rfl⟩ : ∃ f, fuel = f + 1 := ⟨fuel - 1, by omega⟩
      unfold fetch_loop
      rw [show b + 0 = b from rfl] at hok
      rw [hok]
      simp [hval]
  | succ k ih =>
      intro b fuel data hret hok hval hk
      obtain ⟨f, rfl⟩ : ∃ f, fuel = f + 1 := ⟨fuel - 1, by omega⟩
      have hf : k < f := by omega
      have h0 := hret 0 (by omega)
      simp only [Nat.add_zero] at h0
      have hrec := ih (b + 1) f data
        (fun j hj => by
          have := hret (j + 1) (by omega)
          rwa [show b + (j + 1) = b + 1 + j from by omega] at this)
        (by rwa [show b + 1 + k = b + (k + 1) from by omega])
        hval hf
      have hshift : ∀ j : Nat, b + 1 + j = b + (j + 1) := by omega
      have hfz : (f == 0) = false := by
        simp only [beq_eq_false_iff_ne, ne_eq]
        omega
      unfold fetch_loop
      cases hr : responses b with
      | ok d => rw [hr] at h0; simp [retryable] at h0
      | otherError => rw [hr] at h0; simp [retryable] at h0
      | httpError s =>
          rw [hr] at h0
          have hs : (s == 404) = false := by
            simp only [retryable, bne] at h0
            simpa using h0
          simp only [hs, Bool.false_eq_true, if_false, hrec, hfz]
          simp [List.range_succ_eq_map, List.map_cons, List.map_map,
            Function.comp_def, Nat.succ_eq_add_one, hshift]
      | connError =>
          simp only [hrec, hfz]
          simp [List.range_succ_eq_map, List.map_cons, List.map_map,
            Function.comp_def, Nat.succ_eq_add_one, hshift]
      | timeout =>
          simp only [hrec, hfz]
          simp [List.range_succ_eq_map, List.map_cons, List.map_map,
            Function.comp_def, Nat.succ_eq_add_one, hshift]
      | reqError =>
          simp only [hrec, hfz]
          simp [List.range_succ_eq_map, List.map_cons, List.map_map,
            Function.comp_def, Nat.succ_eq_add_one, hshift]

/-- C3: when the remote request for a (cache-missed, non-future) date
yields HTTP 404 — after any run of retryable failures — get_rates returns
None immediately: the attempt count stops at that attempt, no fallback scan
of the cache runs, and the cache is unchanged. -/
theorem c3_404_terminal :
    ∀ (cfg : Config) (now nowTime : Int) (cache : Cache)
      (responses : Nat → HttpOutcome) (target : Int) (k : Nat),
      target ≤ now →
      load_from_cache cfg now nowTime cache target = none →
      (∀ j, j < k → retryable (responses j) = true) →
      responses k = .httpError 404 →
      k < cfg.max_retries →
      get_rates cfg now nowTime cache responses (some target) =
        ⟨none, cache, k + 1, false,
          (List.range k).map (fun j => cfg.retry_delay * 2 ^ j)⟩ := by
  intro cfg now nowTime cache responses target k hle hload hret h404 hk
  unfold get_rates
  simp only [Option.getD_some]
  rw [if_neg (by omega)]
  simp only [hload]
  rw [if_neg (build_url_ne_empty cfg now target hle)]
  have h := fetch_loop_404 cfg now nowTime cache responses k 0 cfg.max_retries
    (fun j hj => by simpa using hret j hj) (by simpa using h404) hk
  rw [h]
  simp

/-- Witness for C3 at concrete inputs: an immediate 404 on day 100 with an
empty cache returns None after exactly one attempt, no fallback, no sleeps. -/
theorem c3_404_terminal_witness :
    get_rates defaultConfig 100 0 [] (fun _ => .httpError 404) (some 100) =
      ⟨none, [], 1, false, []⟩ := by
  have h := c3_404_terminal defaultConfig 100 0 [] (fun _ => .httpError 404) 100 0
    (by decide) (by decide) (fun j hj => absurd hj (Nat.not_lt_zero j)) rfl (by decide)
  simpa using h

/-- C4: when the fetched payload fails the validator — after any run of
retryable failures — the error is terminal for the fetch: no further
attempt is made and get_rates returns the backward cache scan (the fallback)
with the cache unchanged. -/
theorem c4_invalid_payload_fallback :
    ∀ (cfg : Config) (now nowTime : Int) (cache : Cache)
      (responses : Nat → HttpOutcome) (target : Int) (k : Nat) (data : ApiData),
      target ≤ now →
      load_from_cache cfg now nowTime cache target = none →
      (∀ j, j < k → retryable (responses j) = true) →
      responses k = .ok data →
      validate_data data = false →
      k < cfg.max_retries →
      get_rates cfg now nowTime cache responses (some target) =
        ⟨get_last_available_cached_data cfg now nowTime cache, cache, k + 1, true,
          (List.range k).map (fun j => cfg.retry_delay * 2 ^ j)⟩ := by
  intro cfg now nowTime cache responses target k data hle hload hret hok hval hk
  unfold get_rates
  simp only [Option.getD_some]
  rw [if_neg (by omega)]
  simp only [hload]
  rw [if_neg (build_url_ne_empty cfg now target hle)]
  have h := fetch_loop_invalid cfg now nowTime cache responses k 0 cfg.max_retries data
    (fun j hj => by simpa using hret j hj) (by simpa using hok) hval hk
  rw [h]
  simp

/-- A payload missing the top-level Date key: the validator rejects it. -/
def invalidData : ApiData := ⟨["PreviousDate", "Valute"], none, [("USD", sampleEntry)]⟩

/-- Witness for C4 at concrete inputs: an invalid payload on the first
attempt with a cached snapshot for day 99 falls back to that snapshot after
exactly one attempt. -/
theorem c4_invalid_payload_fallback_witness :
    get_rates defaultConfig 100 0 cacheYesterday (fun _ => .ok invalidData) (some 100) =
      ⟨get_last_available_cached_data defaultConfig 100 0 cacheYesterday,
        cacheYesterday, 1, true, []⟩ := by
  have h := c4_invalid_payload_fallback defaultConfig 100 0 cacheYesterday
    (fun _ => .ok invalidData) 100 0 invalidData
    (by decide) (by decide) (fun j hj => absurd hj (Nat.not_lt_zero j)) rfl (by decide) (by decide)
  simpa using h

/-- The retry loop issues at most `fuel` network attempts. -/
theorem fetch_loop_attempts_le (cfg : Config) (now : Int) (t : Int) (cache : Cache)
    (responses : Nat → HttpOutcome) :
    ∀ (fuel b : Nat), (fetch_loop cfg now t cache responses b fuel).attempts ≤ fuel := by
  intro fuel
  induction fuel with
  | zero => intro b; exact le_refl 0
  | succ f ih =>
      intro b
      unfold fetch_loop
      cases responses b with
      | ok data =>
          simp only
          split
          · simp
          · simp
      | httpError s =>
          simp only
          split
          · simp
          · have := ih (b + 1)
            simp only []
            omega
      | connError => have := ih (b + 1); simp only []; omega
      | timeout => have := ih (b + 1); simp only []; omega
      | reqError => have := ih (b + 1); simp only []; omega
      | otherError => simp

/-- The sleeps of the retry loop starting at attempt `b` are exactly the
exponential back-off schedule `retry_delay * 2 ^ (b + j)` for `j` below some
count. -/
theorem fetch_loop_sleeps_form (cfg : Config) (now : Int) (t : Int) (cache : Cache)
    (responses : Nat → HttpOutcome) :
    ∀ (fuel b : Nat), ∃ n,
      (fetch_loop cfg now t cache responses b fuel).sleeps =
        (List.range n).map (fun j => cfg.retry_delay * 2 ^ (b + j)) := by
  intro fuel
  induction fuel with
  | zero => intro b; exact ⟨0, rfl⟩
  | succ f ih =>
      intro b
      unfold fetch_loop
      cases responses b with
      | ok data =>
          refine ⟨0, ?_⟩
          simp only
          split
          · rfl
          · rfl
      | httpError s =>
          by_cases hs : (s == 404) = true
          · exact ⟨0, by simp [hs]⟩
          · obtain ⟨n, hn⟩ := ih (b + 1)
            cases f with
            | zero => exact ⟨0, by simp [hs, fetch_loop]⟩
            | succ f2 =>
                refine ⟨n + 1, ?_⟩
                have hshift : ∀ j : Nat, b + 1 + j = b + (j + 1) := by omega
                simp only [eq_false_of_ne_true hs, Bool.false_eq_true, if_false, hn]
                simp [List.range_succ_eq_map, List.map_map, Function.comp_def,
                  Nat.succ_eq_add_one, hshift]
      | connError =>
          obtain ⟨n, hn⟩ := ih (b + 1)
          cases f with
          | zero => exact ⟨0, by simp [fetch_loop]⟩
          | succ f2 =>
              refine ⟨n + 1, ?_⟩
              have hshift : ∀ j : Nat, b + 1 + j = b + (j + 1) := by omega
              simp only [hn]
              simp [List.range_succ_eq_map, List.map_map, Function.comp_def,
                Nat.succ_eq_add_one, hshift]
      | timeout =>
          obtain ⟨n, hn⟩ := ih (b + 1)
          cases f with
          | zero => exact ⟨0, by simp [fetch_loop]⟩
          | succ f2 =>
              refine ⟨n + 1, ?_⟩
              have hshift : ∀ j : Nat, b + 1 + j = b + (j + 1) := by omega
              simp only [hn]
              simp [List.range_succ_eq_map, List.map_map, Function.comp_def,
                Nat.succ_eq_add_one, hshift]
      | reqError =>
          obtain ⟨n, hn⟩ := ih (b + 1)
          cases f with
          | zero => exact ⟨0, by simp [fetch_loop]⟩
          | succ f2 =>
              refine ⟨n + 1, ?_⟩
              have hshift : ∀ j : Nat, b + 1 + j = b + (j + 1) := by omega
              simp only [hn]
              simp [List.range_succ_eq_map, List.map_map, Function.comp_def,
                Nat.succ_eq_add_one, hshift]
      | otherError => exact ⟨0, rfl⟩

/-- The worker's retry loop issues at most `fuel` network attempts. -/
theorem worker_fetch_loop_attempts_le (cfg : Config) (running : Bool)
    (responses : Nat → HttpOutcome) :
    ∀ (fuel b : Nat), (worker_fetch_loop cfg running responses b fuel).attempts ≤ fuel := by
  intro fuel
  induction fuel with
  | zero => intro b; exact le_refl 0
  | succ f ih =>
      intro b
      unfold worker_fetch_loop
      split
      · simp
      · cases responses b with
        | ok data =>
            simp only
            split
            · simp
            · simp
        | httpError s =>
            simp only
            split
            · simp
            · have := ih (b + 1)
              simp only []
              omega
        | connError => have := ih (b + 1); simp only []; omega
        | timeout => have := ih (b + 1); simp only []; omega
        | reqError => have := ih (b + 1); simp only []; omega
        | otherError => simp

/-- An exponential back-off schedule with a positive base is strictly
increasing between successive entries. -/
theorem chain_lt_delays (d : Int) (hd : 0 < d) :
    ∀ (n b : Nat),
      List.Chain' (fun a c => a < c) ((List.range n).map fun j => d * 2 ^ (b + j)) := by
  intro n
  induction n with
  | zero => intro b; simp
  | succ m ih =>
      intro b
      have hshift : ∀ j : Nat, b + (j + 1) = b + 1 + j := by omega
      rw [List.range_succ_eq_map, List.map_cons, List.map_map]
      refine List.chain'_cons'.2 ⟨?_, ?_⟩
      · intro y hy
        cases m with
        | zero => simp at hy
        | succ m2 =>
            rw [List.range_succ_eq_map, List.map_cons, List.head?_cons] at hy
            simp only [Option.mem_def, Option.some_inj] at hy
            subst hy
            simp only [Function.comp_apply, Nat.succ_eq_add_one, Nat.add_zero, Nat.zero_add]
            have h2 : (0:Int) < 2 ^ b := pow_pos (by norm_num) b
            rw [show b + (0 + 1) = b + 1 from by omega, pow_succ]
            nlinarith
      · have : ((List.range m).map ((fun j => d * 2 ^ (b + j)) ∘ Nat.succ)) =
            ((List.range m).map fun j => d * 2 ^ (b + 1 + j)) := by
          refine List.map_congr_left ?_
          intro j hj
          simp only [Function.comp_apply, Nat.succ_eq_add_one]
          rw [show b + (j + 1) = b + 1 + j from by omega]
        rw [this]
        exact ih (b + 1)

/-- C5: a single get_rates call issues at most max_retries network
attempts (likewise the async worker's fetch), and the slept back-off delays
are exactly the schedule retry_delay * 2 ^ j for j = 0, 1, ..., so for a
positive base delay successive delays strictly increase. -/
theorem c5_retry_bound :
    ∀ (cfg : Config) (now nowTime : Int) (cache : Cache)
      (responses : Nat → HttpOutcome) (targetOpt : Option Int)
      (running : Bool) (target : Int),
      (get_rates cfg now nowTime cache responses targetOpt).attempts ≤ cfg.max_retries ∧
      (worker_fetch_from_api cfg running now target responses).attempts ≤ cfg.max_retries ∧
      (∃ n, (get_rates cfg now nowTime cache responses targetOpt).sleeps =
        (List.range n).map (fun j => cfg.retry_delay * 2 ^ j)) ∧
      (0 < cfg.retry_delay →
        List.Chain' (fun a c => a < c)
          (get_rates cfg now nowTime cache responses targetOpt).sleeps) := by
  intro cfg now nowTime cache responses targetOpt running target
  have hsleeps : ∃ n, (get_rates cfg now nowTime cache responses targetOpt).sleeps =
      (List.range n).map (fun j => cfg.retry_delay * 2 ^ j) := by
    unfold get_rates
    simp only
    split
    · exact ⟨0, rfl⟩
    · split
      · exact ⟨0, rfl⟩
      · split
        · exact ⟨0, rfl⟩
        · obtain ⟨n, hn⟩ := fetch_loop_sleeps_form cfg now nowTime cache responses cfg.max_retries 0
          exact ⟨n, by simpa using hn⟩
  refine ⟨?_, ?_, hsleeps, ?_⟩
  · unfold get_rates
    simp only
    split
    · simp
    · split
      · simp
      · split
        · simp
        · exact fetch_loop_attempts_le cfg now nowTime cache responses cfg.max_retries 0
  · unfold worker_fetch_from_api
    split
    · simp
    · exact worker_fetch_loop_attempts_le cfg running responses cfg.max_retries 0
  · intro hd
    obtain ⟨n, hn⟩ := hsleeps
    rw [hn]
    have hc := chain_lt_delays cfg.retry_delay hd n 0
    simpa using hc

/-- Witness for C5 at concrete inputs: with the default config and a
permanently unreachable network, attempts stay within 3 and the slept
delays (2, 4) strictly increase. -/
theorem c5_retry_bound_witness :
    (get_rates defaultConfig 100 0 [] (fun _ => .connError) (some 100)).attempts ≤
      defaultConfig.max_retries ∧
    (0 : Int) < defaultConfig.retry_delay ∧
    List.Chain' (fun a c => a < c)
      (get_rates defaultConfig 100 0 [] (fun _ => .connError) (some 100)).sleeps :=
  ⟨(c5_retry_bound defaultConfig 100 0 [] (fun _ => .connError) (some 100) true 100).1,
   by decide,
   (c5_retry_bound defaultConfig 100 0 [] (fun _ => .connError) (some 100) true 100).2.2.2
     (by decide)⟩

/-- Specification of the backward cache scan starting at offset `b` with
`fuel` iterations left: a hit is the first cached day in the scanned
window, and an all-miss window yields none. -/
theorem scan_cached_days_spec (cfg : Config) (now : Int) (nowTime : Int) (cache : Cache) :
    ∀ (fuel b : Nat),
      (∀ d, scan_cached_days cfg now nowTime cache b fuel = some d →
        ∃ k : Nat, k < fuel ∧
          load_from_cache cfg now nowTime cache (now - ((b + k : Nat) : Int)) = some d ∧
          ∀ j : Nat, j < k →
            load_from_cache cfg now nowTime cache (now - ((b + j : Nat) : Int)) = none) ∧
      ((∀ k : Nat, k < fuel →
          load_from_cache cfg now nowTime cache (now - ((b + k : Nat) : Int)) = none) →
        scan_cached_days cfg now nowTime cache b fuel = none) := by
  intro fuel
  induction fuel with
  | zero =>
      intro b
      constructor
      · intro d hd
        simp [scan_cached_days] at hd
      · intro _
        rfl
  | succ f ih =>
      intro b
      have hnotfut : ¬ now < now - ((b : Nat) : Int) := by omega
      constructor
      · intro d hd
        unfold scan_cached_days at hd
        rw [if_neg hnotfut] at hd
        cases hl : load_from_cache cfg now nowTime cache (now - ((b : Nat) : Int)) with
        | some x =>
            rw [hl] at hd
            simp only [Option.some_inj] at hd
            subst hd
            refine ⟨0, by omega, ?_, ?_⟩
            · simpa using hl
            · intro j hj
              omega
        | none =>
            rw [hl] at hd
            obtain ⟨k, hk, hhit, hmiss⟩ := (ih (b + 1)).1 d hd
            refine ⟨k + 1, by omega, ?_, ?_⟩
            · rw [show ((b + (k + 1) : Nat) : Int) = ((b + 1 + k : Nat) : Int) from by push_cast; omega]
              exact hhit
            · intro j hj
              cases j with
              | zero => simpa using hl
              | succ j2 =>
                  rw [show ((b + (j2 + 1) : Nat) : Int) = ((b + 1 + j2 : Nat) : Int) from by
                    push_cast; omega]
                  exact hmiss j2 (by omega)
      · intro hmiss
        unfold scan_cached_days
        rw [if_neg hnotfut]
        have h0 := hmiss 0 (by omega)
        rw [show ((b + 0 : Nat) : Int) = ((b : Nat) : Int) from by push_cast; omega] at h0
        rw [h0]
        exact (ih (b + 1)).2 (fun k hk => by
          have := hmiss (k + 1) (by omega)
          rwa [show ((b + (k + 1) : Nat) : Int) = ((b + 1 + k : Nat) : Int) from by
            push_cast; omega] at this)

/-- C6: the fallback scan checks cached dates backward day by day from the
query date (today), returns the first cached snapshot found, never from a
day more than 7 days before the query date, and returns none when no cached
record exists in that window. -/
theorem c6_fallback_bound :
    ∀ (cfg : Config) (now nowTime : Int) (cache : Cache),
      (∀ d, get_last_available_cached_data cfg now nowTime cache = some d →
        ∃ k : Nat, k ≤ 7 ∧
          load_from_cache cfg now nowTime cache (now - (k : Int)) = some d ∧
          ∀ j : Nat, j < k → load_from_cache cfg now nowTime cache (now - (j : Int)) = none) ∧
      ((∀ k : Nat, k ≤ 7 → load_from_cache cfg now nowTime cache (now - (k : Int)) = none) →
        get_last_available_cached_data cfg now nowTime cache = none) := by
  intro cfg now nowTime cache
  constructor
  · intro d hd
    obtain ⟨k, hk, hhit, hmiss⟩ := (scan_cached_days_spec cfg now nowTime cache 8 0).1 d hd
    refine ⟨k, by omega, ?_, ?_⟩
    · rw [show ((k : Nat) : Int) = ((0 + k : Nat) : Int) from by push_cast; omega]
      exact hhit
    · intro j hj
      rw [show ((j : Nat) : Int) = ((0 + j : Nat) : Int) from by push_cast; omega]
      exact hmiss j hj
  · intro hmiss
    exact (scan_cached_days_spec cfg now nowTime cache 8 0).2 (fun k hk => by
      have := hmiss k (by omega)
      rwa [show ((k : Nat) : Int) = ((0 + k : Nat) : Int) from by push_cast; omega] at this)

/-- Witness for C6 at concrete inputs: with a snapshot cached one day back,
the scan finds it within the window; with an empty cache it returns none. -/
theorem c6_fallback_bound_witness :
    (∃ k : Nat, k ≤ 7 ∧
      load_from_cache defaultConfig 100 0 cacheYesterday (100 - (k : Int)) = some sampleData ∧
      ∀ j : Nat, j < k →
        load_from_cache defaultConfig 100 0 cacheYesterday (100 - (j : Int)) = none) ∧
    get_last_available_cached_data defaultConfig 100 0 [] = none := by
  have hload : ∀ x : Int, load_from_cache defaultConfig 100 0 [] x = none := by
    intro x
    unfold load_from_cache
    split
    · rfl
    · split
      · rfl
      · rfl
  constructor
  · exact (c6_fallback_bound defaultConfig 100 0 cacheYesterday).1 sampleData (by decide)
  · exact (c6_fallback_bound defaultConfig 100 0 []).2 (fun k _ => hload (100 - (k : Int)))

/-- An empty currency object (no fields at all). -/
def emptyEntry : CurrencyEntry := ⟨[], 0, 0, 0, ""⟩

/-- A payload whose sampled (first) currency entry is an empty object. -/
def emptyEntryData : ApiData := ⟨requiredKeys, some 99, [("USD", emptyEntry)]⟩

/-- C7 counterexample: the sampled currency entry lacks every required
field (shown for the identifier), yet the client validator accepts the
payload — dict truthiness skips the field check for an empty object, so the
claimed exact characterization fails. -/
theorem c7_counterexample :
    emptyEntryData.valute.head? = some ("USD", emptyEntry) ∧
    emptyEntry.keys.contains "ID" = false ∧
    validate_data emptyEntryData = true := by decide

/-- C7 (amended): the client validator returns true exactly when all three
top-level keys are present, the currency map is non-empty, and the sampled
first entry either is an empty object (not field-checked) or carries all
seven required fields; the worker validator checks only the top-level keys
and non-emptiness.  Both are pure functions of the payload. -/
theorem c7_validator_characterization :
    ∀ data : ApiData,
      (validate_data data = true ↔
        ((∀ k ∈ requiredKeys, k ∈ data.keys) ∧ data.valute ≠ [] ∧
          ∀ kv ∈ data.valute.head?, kv.2.keys = [] ∨
            ∀ f ∈ requiredCurrencyFields, f ∈ kv.2.keys)) ∧
      (worker_validate_data data = true ↔
        ((∀ k ∈ requiredKeys, k ∈ data.keys) ∧ data.valute ≠ [])) := by
  intro data
  by_cases hreq : requiredKeys.all (fun k => data.keys.contains k) = true
  · have hkm : ∀ k ∈ requiredKeys, k ∈ data.keys := by
      intro k hk
      simpa using List.all_eq_true.mp hreq k hk
    have hv : "Valute" ∈ data.keys := hkm "Valute" (by simp [requiredKeys])
    cases hval : data.valute with
    | nil =>
        simp [validate_data, worker_validate_data, hreq, hv, hval, hkm]
    | cons kv rest =>
        by_cases hke : kv.2.keys = []
        · simp [validate_data, worker_validate_data, hreq, hv, hval, hkm, hke]
        · simp [validate_data, worker_validate_data, hreq, hv, hval, hkm, hke,
            List.all_eq_true]
  · have hkm : ¬ ∀ k ∈ requiredKeys, k ∈ data.keys := by
      intro hc
      exact hreq (List.all_eq_true.mpr (fun k hk => by simpa using hc k hk))
    simp [validate_data, worker_validate_data, hreq, hkm]

/-- A currency entry carrying all seven fields but with nominal 0. -/
def zeroNomEntry : CurrencyEntry := ⟨requiredCurrencyFields, 0, 90, 85, "Dollar"⟩

/-- A payload (embedded date day 100) whose only currency has nominal 0. -/
def zeroNomData : ApiData := ⟨requiredKeys, some 100, [("USD", zeroNomEntry)]⟩

/-- C8 counterexample: a payload whose currency record has nominal 0 passes
the validator (which checks only the presence of the Nominal field, not its
value) and is written to the cache by get_rates. -/
theorem c8_counterexample :
    zeroNomEntry.nominal = 0 ∧
    validate_data zeroNomData = true ∧
    (get_rates defaultConfig 100 0 [] (fun _ => .ok zeroNomData)
        (some 100)).cache.lookup 100 = some ⟨zeroNomData, 0⟩ := by
  decide

/-- C8 (amended): the validator does not enforce nominal positivity and
records with nominal not strictly positive can reach the cache, but the
division by nominal in DataHandler is explicitly guarded: a currency whose
nominal is 0 raises the caught ZeroDivisionError and is skipped, so every
processed entry has a non-zero nominal. -/
theorem c8_nominal_guard :
    ∀ (raw : ApiData) (targetOpt : Option Int) (now : Int) (e : ProcessedEntry),
      e ∈ parse_and_process raw targetOpt now → e.nominal ≠ 0 := by
  intro raw targetOpt now e he
  unfold parse_and_process at he
  rw [(List.perm_insertionSort _ _).mem_iff] at he
  rw [List.mem_filterMap] at he
  obtain ⟨kv, hkv, hp⟩ := he
  unfold process_currency at hp
  dsimp only at hp
  split at hp
  · split at hp
    · exact absurd hp (by simp)
    · rename_i hnz
      simp only [Option.some_inj] at hp
      subst hp
      exact hnz
  · exact absurd hp (by simp)

/-- The processed row produced from sampleData's USD entry. -/
def sampleProcessed : ProcessedEntry :=
  ⟨"USD", "Dollar", 1, 90, 90, 85, 85, 5, 147 / 25, 100⟩

/-- Witness for C8 (amended) at concrete inputs: the row parsed from
sampleData is in the processed output and its nominal is non-zero. -/
theorem c8_nominal_guard_witness :
    sampleProcessed ∈ parse_and_process sampleData (some 100) 100 ∧
    sampleProcessed.nominal ≠ 0 := by
  have heq : parse_and_process sampleData (some 100) 100 = [sampleProcessed] := by
    norm_num [parse_and_process, process_currency, sampleData, sampleEntry, sampleProcessed,
      pyRound, pyRoundInt, Rat.floor, requiredKeys, requiredCurrencyFields,
      List.insertionSort, List.orderedInsert, List.filterMap]
  have hmem : sampleProcessed ∈ parse_and_process sampleData (some 100) 100 := by
    rw [heq]
    exact List.mem_singleton_self _
  exact ⟨hmem, c8_nominal_guard sampleData (some 100) 100 sampleProcessed hmem⟩

/-- C9 counterexample: on day 100 the provider payload embeds date 99, so
the first get_rates(100) call succeeds and persists a fresh entry — but
under key 99, not 100; the immediately following get_rates(100) call misses
the cache and issues a network attempt instead of zero. -/
theorem c9_counterexample :
    (get_rates defaultConfig 100 0 [] (fun _ => .ok sampleData) (some 100)).result =
      some sampleData ∧
    (get_rates defaultConfig 100 0 [] (fun _ => .ok sampleData) (some 100)).cache.lookup 99 =
      some ⟨sampleData, 0⟩ ∧
    (get_rates defaultConfig 100 0
        (get_rates defaultConfig 100 0 [] (fun _ => .ok sampleData) (some 100)).cache
        (fun _ => .ok sampleData) (some 100)).attempts = 1 := by
  decide

/-- C9 (amended): idempotence holds when the payload-derived (coerced) date
equals the requested date: after a first successful call that persists the
snapshot under the requested date, a second call for the same date within
the freshness window issues zero network attempts and returns the identical
snapshot. -/
theorem c9_idempotence_same_key :
    ∀ (cfg : Config) (now t1 t2 : Int) (cache : Cache)
      (responses responses2 : Nat → HttpOutcome) (d : Int) (data : ApiData),
      cfg.cache_enabled = true →
      d ≤ now →
      load_from_cache cfg now t1 cache d = none →
      0 < cfg.max_retries →
      responses 0 = .ok data →
      validate_data data = true →
      get_cache_date_from_data now data = d →
      t2 - t1 < cfg.cache_duration_hours * 3600 →
      (get_rates cfg now t1 cache responses (some d)).result = some data ∧
      (get_rates cfg now t2 (get_rates cfg now t1 cache responses (some d)).cache
          responses2 (some d)).attempts = 0 ∧
      (get_rates cfg now t2 (get_rates cfg now t1 cache responses (some d)).cache
          responses2 (some d)).result = some data := by
  intro cfg now t1 t2 cache responses responses2 d data hen hdle hload hmax hresp hval hdd hfresh
  obtain ⟨m, hm⟩ : ∃ m, cfg.max_retries = m + 1 := ⟨cfg.max_retries - 1, by omega⟩
  have h1 : get_rates cfg now t1 cache responses (some d) =
      ⟨some data, (d, ⟨data, t1⟩) :: cache, 1, false, []⟩ := by
    unfold get_rates
    simp only [Option.getD_some]
    rw [if_neg (by omega)]
    simp only [hload]
    rw [if_neg (build_url_ne_empty cfg now d hdle)]
    rw [hm]
    unfold fetch_loop
    rw [hresp]
    simp only [hval, if_true]
    rw [hdd]
    unfold save_to_cache
    rw [if_neg (by simp [hen]), if_neg (by omega)]
  have h2 : load_from_cache cfg now t2 ((d, (⟨data, t1⟩ : CacheEntry)) :: cache) d =
      some data := by
    unfold load_from_cache
    rw [if_neg (by simp [hen]), if_neg (by omega)]
    have hlk : List.lookup d ((d, (⟨data, t1⟩ : CacheEntry)) :: cache) = some ⟨data, t1⟩ := by
      simp [List.lookup_cons]
    simp only [hlk]
    rw [if_neg (by omega)]
    rw [if_pos hfresh]
  refine ⟨by rw [h1], ?_, ?_⟩
  · rw [h1]
    unfold get_rates
    simp only [Option.getD_some]
    rw [if_neg (by omega)]
    simp only [h2]
  · rw [h1]
    unfold get_rates
    simp only [Option.getD_some]
    rw [if_neg (by omega)]
    simp only [h2]

/-- Witness for C9 (amended) at concrete inputs: the provider payload for
day 99 requested on day 100 is saved under 99; a second request for 99 at
time 100 is served from cache with zero attempts. -/
theorem c9_idempotence_same_key_witness :
    (get_rates defaultConfig 100 0 [] (fun _ => .ok sampleData) (some 99)).result =
      some sampleData ∧
    (get_rates defaultConfig 100 100
        (get_rates defaultConfig 100 0 [] (fun _ => .ok sampleData) (some 99)).cache
        (fun _ => .connError) (some 99)).attempts = 0 ∧
    (get_rates defaultConfig 100 100
        (get_rates defaultConfig 100 0 [] (fun _ => .ok sampleData) (some 99)).cache
        (fun _ => .connError) (some 99)).result = some sampleData :=
  c9_idempotence_same_key defaultConfig 100 0 100 [] (fun _ => .ok sampleData)
    (fun _ => .connError) 99 sampleData rfl (by decide) (by decide) (by decide) rfl
    (by decide) (by decide) (by decide)

/-- C10: Calculator.calculate_changes is total on numeric inputs: a zero
previous rate returns exactly (0, 0), and a zero nominal (the caught
ZeroDivisionError) likewise returns (0, 0). -/
theorem c10_calculate_changes_guards :
    ∀ (c p : ℚ) (n : Int),
      (p = 0 → calculate_changes c p n = (0, 0)) ∧
      (n = 0 → calculate_changes c p n = (0, 0)) := by
  intro c p n
  constructor
  · intro hp
    simp [calculate_changes, hp]
  · intro hn
    by_cases hp : p = 0
    · simp [calculate_changes, hp]
    · simp [calculate_changes, hp, hn]

/-- Witness for C10 at concrete inputs: previous rate 0 and nominal 0 both
map to (0, 0). -/
theorem c10_calculate_changes_guards_witness :
    calculate_changes 5 0 1 = (0, 0) ∧ calculate_changes 5 3 0 = (0, 0) :=
  ⟨(c10_calculate_changes_guards 5 0 1).1 rfl, (c10_calculate_changes_guards 5 3 0).2 rfl⟩
